import Mathlib

/-!
Shallow embedding of `assets/Tutorial.ts` (Cocos Creator tutorial-hand
component).  Numbers of the source (TypeScript `number`) are modelled as
rationals.  The external collaborators (scene graph, tween engine,
scheduler, event bus) are modelled as an effect trace: `node.emit` calls,
console log calls and animation/tween commands are recorded in order in a
single `List Eff`.  The promise-chained async pipeline is collapsed into a
sequential function, which is faithful because the source runs on a
single-threaded cooperative scheduler: a whole hint session (from the
`showX` call through its `then`/`catch` handler) is modelled as one
state-and-trace transformer.  A possible rejection of the external tween
pipeline (the only asynchronous failure source: `animateHandThroughTargets`
itself never rejects) is injected through an explicit
`tweenFailure : Option Nat` parameter: `none` means the awaited animation
chain resolves, `some k` means it rejects after `k` animation commands were
issued.
-/

namespace Tutorial

/-- 3D vector, embedding the engine `Vec3` (components are TS numbers). -/
structure Vec3 where
  x : ℚ
  y : ℚ
  z : ℚ
deriving DecidableEq

/-- Component-wise vector addition, as written inline in the source:
`new Vec3(worldPos.x + offset.x, worldPos.y + offset.y, worldPos.z + offset.z)`. -/
def vadd (a b : Vec3) : Vec3 :=
  ⟨a.x + b.x, a.y + b.y, a.z + b.z⟩

/-- The `HintType` enum of the source, values 0..3. -/
inductive HintType where
  | START_GAME
  | INACTIVITY
  | MISSION_FAIL
  | CUSTOM
deriving DecidableEq

/-- Numeric values assigned by the source enum. -/
def HintType.toNat : HintType → ℕ
  | .START_GAME => 0
  | .INACTIVITY => 1
  | .MISSION_FAIL => 2
  | .CUSTOM => 3

/-- `TutorialTarget` of the source.  The `node` field is an opaque external
scene-actor reference never inspected by the sequencer logic (only
`worldPosition` and `isValid` are read), so it is omitted. -/
structure TutorialTarget where
  worldPosition : Vec3
  isValid : Bool
deriving DecidableEq

/-- The configurable properties of the component (the `@property` fields
and their runtime setters).  The inactivity delay is modelled as an
integer: it is only ever compared against the idle counter, which counts
whole scheduler seconds (the spec calls it an integer number of elapsed
seconds). -/
structure Config where
  inactivityDelay : ℤ
  handScale : Vec3
  handOffset : Vec3
  pressAnimationScale : ℚ
  pressAnimationDuration : ℚ
  moveSpeed : ℚ
deriving DecidableEq

/-- Default property values from the field initializers. -/
def defaultConfig : Config :=
  { inactivityDelay := 15
    handScale := ⟨1, 1, 1⟩
    handOffset := ⟨0, 0, 0⟩
    pressAnimationScale := 12/10
    pressAnimationDuration := 1/10
    moveSpeed := 1/2 }

/-- Mutable component state: configuration, inactivity counter, the
single-flight guard `isActive`, the setup flag `isReady`, and the hand
actor (whether it was created, and its visibility `hand.active`). -/
structure TutorialState where
  cfg : Config
  inactivityTime : ℤ
  isActive : Bool
  isReady : Bool
  handExists : Bool
  handActive : Bool
deriving DecidableEq

/-- Events emitted on the component node (`node.emit`).  `hintEnd none`
is the payload-less emission done by `stop()`. -/
inductive Event where
  | hintStart (t : HintType)
  | hintEnd (t : Option HintType)
  | playerInactive
deriving DecidableEq

/-- Console log severities (`console.log` / `console.warn` / `console.error`). -/
inductive LogLevel where
  | info
  | warn
  | error
deriving DecidableEq

/-- Commands issued to the external scene-graph/tween collaborator. -/
inductive AnimStep where
  | setWorldPosition (p : Vec3)
  | settleDelay (d : ℚ)
  | moveTo (d : ℚ) (p : Vec3)
  | scaleTo (d : ℚ) (s : Vec3)
  | delay (d : ℚ)
  | tweenStop
deriving DecidableEq

/-- One entry of the observable effect trace. -/
inductive Eff where
  | emit (e : Event)
  | log (l : LogLevel)
  | anim (a : AnimStep)
deriving DecidableEq

/-- The `node.emit` events of a trace, in order. -/
def emittedEvents (t : List Eff) : List Event :=
  t.filterMap fun e =>
    match e with
    | Eff.emit ev => some ev
    | _ => none

/-- The console log severities of a trace, in order. -/
def loggedLevels (t : List Eff) : List LogLevel :=
  t.filterMap fun e =>
    match e with
    | Eff.log l => some l
    | _ => none

/-- The animation commands of a trace, in order. -/
def animCmds (t : List Eff) : List AnimStep :=
  t.filterMap fun e =>
    match e with
    | Eff.anim a => some a
    | _ => none

/-- `playPressAnimation`: pressed scale multiplies X and Y of the
configured hand scale by `pressAnimationScale` (Z unchanged); the tween is
scale-to-pressed, scale-back, then a fixed 0.3 s delay before resolving. -/
def playPressAnimation (cfg : Config) : List AnimStep :=
  let originalScale := cfg.handScale
  let pressedScale : Vec3 :=
    ⟨originalScale.x * cfg.pressAnimationScale,
     originalScale.y * cfg.pressAnimationScale,
     originalScale.z⟩
  [AnimStep.scaleTo cfg.pressAnimationDuration pressedScale,
   AnimStep.scaleTo cfg.pressAnimationDuration originalScale,
   AnimStep.delay (3/10)]

/-- The `animateNextTarget` recursion inside `animateHandThroughTargets`:
walk the target list from `currentIndex`; an invalid target is skipped
without animating; a valid one gets a move tween over `moveSpeed` to its
world position plus the configured offset, then the press animation, then
the next target. -/
def animateNextTarget (cfg : Config) : List TutorialTarget → List AnimStep
  | [] => []
  | target :: rest =>
    if target.isValid then
      AnimStep.moveTo cfg.moveSpeed (vadd target.worldPosition cfg.handOffset)
        :: (playPressAnimation cfg ++ animateNextTarget cfg rest)
    else
      animateNextTarget cfg rest

/-- `animateHandThroughTargets`: empty list resolves at once; an invalid
first target resolves at once; otherwise the hand is set directly to the
first target position plus offset, a 0.5 s settle delay is scheduled, and
the per-target loop runs from index 0. -/
def animateHandThroughTargets (cfg : Config) (targets : List TutorialTarget) :
    List AnimStep :=
  match targets with
  | [] => []
  | firstTarget :: _ =>
    if firstTarget.isValid then
      AnimStep.setWorldPosition (vadd firstTarget.worldPosition cfg.handOffset)
        :: AnimStep.settleDelay (1/2)
        :: animateNextTarget cfg targets
    else []

/-- Outcome of `playHintAnimation`: final hand visibility, animation
commands actually issued, and whether the promise resolved (`true`) or
rejected (`false`). -/
structure PlayResult where
  handActive : Bool
  steps : List AnimStep
  resolved : Bool
deriving DecidableEq

/-- `playHintAnimation`: rejects at once on an empty list (hand untouched);
otherwise truncates to the first 3 targets, sets `hand.active = true`, and
awaits the animation chain.  On resolution it sets `hand.active = false`;
if the external tween pipeline rejects (injected as `some k`), the
`hand.active = false` line is never reached, so the hand stays visible and
the promise rejects. -/
def playHintAnimation (cfg : Config) (handActive0 : Bool)
    (targets : List TutorialTarget) (tweenFailure : Option ℕ) : PlayResult :=
  if targets.length < 1 then
    { handActive := handActive0, steps := [], resolved := false }
  else
    let hintTargets := targets.take 3
    let steps := animateHandThroughTargets cfg hintTargets
    match tweenFailure with
    | none => { handActive := false, steps := steps, resolved := true }
    | some k => { handActive := true, steps := steps.take k, resolved := false }

/-- `showCustomHint` together with its `then`/`catch` continuation: guarded
by `isActive`; logs, sets the flag, emits `hint-start`, runs
`playCustomHintAnimation` (an alias of `playHintAnimation`), and in both
the resolve and the reject branch clears the flag and emits `hint-end`
with the hint type (the reject branch also logs an error). -/
def showCustomHint (s : TutorialState) (targets : List TutorialTarget)
    (hintType : HintType) (tweenFailure : Option ℕ) :
    TutorialState × List Eff :=
  if s.isActive then (s, [])
  else
    let r := playHintAnimation s.cfg s.handActive targets tweenFailure
    let sEnd := { s with isActive := false, handActive := r.handActive }
    let preEffs := [Eff.log LogLevel.info, Eff.emit (Event.hintStart hintType)]
    if r.resolved then
      (sEnd, preEffs ++ r.steps.map Eff.anim ++ [Eff.emit (Event.hintEnd (some hintType))])
    else
      (sEnd, preEffs ++ r.steps.map Eff.anim
        ++ [Eff.log LogLevel.error, Eff.emit (Event.hintEnd (some hintType))])

/-- `getDefaultTargets`: the stub resolver logs a warning and returns the
empty list. -/
def getDefaultTargets : List TutorialTarget × List Eff :=
  ([], [Eff.log LogLevel.warn])

/-- `showInactivityHint` with its continuation: guarded by `isActive`;
resolves targets (the explicit argument if passed — an explicit empty
array is truthy in the source and does not fall back — else the default
resolver); rejects an empty resolved list with a warning and no other
effect; otherwise logs, sets the flag, emits `hint-start(INACTIVITY)`,
runs the animation and, resolve or reject, clears the flag and emits
`hint-end(INACTIVITY)`. -/
def showInactivityHint (s : TutorialState)
    (targets : Option (List TutorialTarget)) (tweenFailure : Option ℕ) :
    TutorialState × List Eff :=
  if s.isActive then (s, [])
  else
    let resolvedTargets :=
      match targets with
      | some ts => (ts, ([] : List Eff))
      | none => getDefaultTargets
    let hintTargets := resolvedTargets.1
    if hintTargets.length = 0 then
      (s, resolvedTargets.2 ++ [Eff.log LogLevel.warn])
    else
      let r := playHintAnimation s.cfg s.handActive hintTargets tweenFailure
      let sEnd := { s with isActive := false, handActive := r.handActive }
      let preEffs := resolvedTargets.2
        ++ [Eff.log LogLevel.info, Eff.emit (Event.hintStart HintType.INACTIVITY)]
      if r.resolved then
        (sEnd, preEffs ++ r.steps.map Eff.anim
          ++ [Eff.emit (Event.hintEnd (some HintType.INACTIVITY))])
      else
        (sEnd, preEffs ++ r.steps.map Eff.anim
          ++ [Eff.log LogLevel.error, Eff.emit (Event.hintEnd (some HintType.INACTIVITY))])

/-- `showStartHint` with its continuation: same shape as
`showInactivityHint` with hint type `START_GAME`. -/
def showStartHint (s : TutorialState)
    (targets : Option (List TutorialTarget)) (tweenFailure : Option ℕ) :
    TutorialState × List Eff :=
  if s.isActive then (s, [])
  else
    let resolvedTargets :=
      match targets with
      | some ts => (ts, ([] : List Eff))
      | none => getDefaultTargets
    let hintTargets := resolvedTargets.1
    if hintTargets.length = 0 then
      (s, resolvedTargets.2 ++ [Eff.log LogLevel.warn])
    else
      let r := playHintAnimation s.cfg s.handActive hintTargets tweenFailure
      let sEnd := { s with isActive := false, handActive := r.handActive }
      let preEffs := resolvedTargets.2
        ++ [Eff.log LogLevel.info, Eff.emit (Event.hintStart HintType.START_GAME)]
      if r.resolved then
        (sEnd, preEffs ++ r.steps.map Eff.anim
          ++ [Eff.emit (Event.hintEnd (some HintType.START_GAME))])
      else
        (sEnd, preEffs ++ r.steps.map Eff.anim
          ++ [Eff.log LogLevel.error, Eff.emit (Event.hintEnd (some HintType.START_GAME))])

/-- `showHint`: guarded by `isActive`, then dispatches by hint type; the
`CUSTOM` case passes `targets || []`; the `default` case (reached for
`MISSION_FAIL`) only logs a warning. -/
def showHint (s : TutorialState) (hintType : HintType)
    (targets : Option (List TutorialTarget)) (tweenFailure : Option ℕ) :
    TutorialState × List Eff :=
  if s.isActive then (s, [])
  else
    match hintType with
    | HintType.START_GAME => showStartHint s targets tweenFailure
    | HintType.INACTIVITY => showInactivityHint s targets tweenFailure
    | HintType.CUSTOM => showCustomHint s (targets.getD []) HintType.CUSTOM tweenFailure
    | HintType.MISSION_FAIL => (s, [Eff.log LogLevel.warn])

/-- `resetInactivityTimer`: sets the idle counter to 0. -/
def resetInactivityTimer (s : TutorialState) : TutorialState :=
  { s with inactivityTime := 0 }

/-- `checkInactivity` (one scheduler tick): no-op while a session is active
or before setup; otherwise adds 1 to the idle counter, and once it reaches
the delay: logs, emits `player-inactive`, runs `showInactivityHint()` with
no targets (so the default resolver is consulted), then resets the counter
to 0 unconditionally. -/
def checkInactivity (s : TutorialState) : TutorialState × List Eff :=
  if s.isActive || !s.isReady then (s, [])
  else
    let s1 := { s with inactivityTime := s.inactivityTime + 1 }
    if s1.cfg.inactivityDelay ≤ s1.inactivityTime then
      let hint := showInactivityHint s1 none none
      (resetInactivityTimer hint.1,
       Eff.log LogLevel.info :: Eff.emit Event.playerInactive :: hint.2)
    else
      (s1, [])

/-- Iterated scheduler ticks, concatenating the traces. -/
def tickN : ℕ → TutorialState → TutorialState × List Eff
  | 0, s => (s, [])
  | n + 1, s =>
    let r := checkInactivity s
    let rest := tickN n r.1
    (rest.1, r.2 ++ rest.2)

/-- `stop`: no-op when no session is active; otherwise stops the tween on
the hand, hides the hand (guarded by its existence), clears the flag, and
emits `hint-end` with no payload. -/
def stop (s : TutorialState) : TutorialState × List Eff :=
  if s.isActive then
    ({ s with
        handActive := if s.handExists then false else s.handActive,
        isActive := false },
     [Eff.anim AnimStep.tweenStop, Eff.emit (Event.hintEnd none)])
  else (s, [])

/-- A freshly set-up component with default configuration, hand created,
no active session. -/
def readyState : TutorialState :=
  { cfg := defaultConfig
    inactivityTime := 0
    isActive := false
    isReady := true
    handExists := true
    handActive := false }

/-- `readyState` with an active hint session in flight. -/
def busyState : TutorialState :=
  { readyState with isActive := true }

/-- A valid sample target at world position (5, 0, 5). -/
def sampleTarget : TutorialTarget :=
  { worldPosition := ⟨5, 0, 5⟩, isValid := true }

/-- An invalidated target (scene actor destroyed). -/
def invalidTarget : TutorialTarget :=
  { worldPosition := ⟨0, 0, 0⟩, isValid := false }

/-- Default configuration with the hand offset of the spec scenario,
(0, 1, 0). -/
def offsetConfig : Config :=
  { defaultConfig with handOffset := ⟨0, 1, 0⟩ }

/-! ## Helper lemmas about trace projections -/

theorem emittedEvents_append (a b : List Eff) :
    emittedEvents (a ++ b) = emittedEvents a ++ emittedEvents b :=
  List.filterMap_append a b _

theorem loggedLevels_append (a b : List Eff) :
    loggedLevels (a ++ b) = loggedLevels a ++ loggedLevels b :=
  List.filterMap_append a b _

theorem animCmds_append (a b : List Eff) :
    animCmds (a ++ b) = animCmds a ++ animCmds b :=
  List.filterMap_append a b _

theorem emittedEvents_animMap (steps : List AnimStep) :
    emittedEvents (steps.map Eff.anim) = [] := by
  simp [emittedEvents]

theorem loggedLevels_animMap (steps : List AnimStep) :
    loggedLevels (steps.map Eff.anim) = [] := by
  simp [loggedLevels]

theorem animCmds_animMap (steps : List AnimStep) :
    animCmds (steps.map Eff.anim) = steps := by
  induction steps with
  | nil => rfl
  | cons a l ih => simpa [animCmds] using ih

/-- Both the resolve and the reject continuation of `showCustomHint` emit
exactly `hint-start` then `hint-end` with the session's hint type. -/
theorem emitted_showCustomHint (s : TutorialState) (targets : List TutorialTarget)
    (ht : HintType) (tf : Option ℕ) (hA : s.isActive = false) :
    emittedEvents (showCustomHint s targets ht tf).2 =
      [Event.hintStart ht, Event.hintEnd (some ht)] := by
  simp only [showCustomHint, hA, Bool.false_eq_true, if_false]
  split <;>
    simp [emittedEvents_append, emittedEvents_animMap, emittedEvents]

/-- Both continuations of `showInactivityHint` (explicit nonempty targets)
emit exactly `hint-start` then `hint-end` with type `INACTIVITY`. -/
theorem emitted_showInactivityHint (s : TutorialState) (ts : List TutorialTarget)
    (tf : Option ℕ) (hA : s.isActive = false) (hne : ts ≠ []) :
    emittedEvents (showInactivityHint s (some ts) tf).2 =
      [Event.hintStart HintType.INACTIVITY, Event.hintEnd (some HintType.INACTIVITY)] := by
  have hlen : ¬ ts.length = 0 := by simpa using hne
  simp only [showInactivityHint, hA, Bool.false_eq_true, if_false, hlen]
  split <;>
    simp [emittedEvents_append, emittedEvents_animMap, emittedEvents]

/-- Both continuations of `showStartHint` (explicit nonempty targets) emit
exactly `hint-start` then `hint-end` with type `START_GAME`. -/
theorem emitted_showStartHint (s : TutorialState) (ts : List TutorialTarget)
    (tf : Option ℕ) (hA : s.isActive = false) (hne : ts ≠ []) :
    emittedEvents (showStartHint s (some ts) tf).2 =
      [Event.hintStart HintType.START_GAME, Event.hintEnd (some HintType.START_GAME)] := by
  have hlen : ¬ ts.length = 0 := by simpa using hne
  simp only [showStartHint, hA, Bool.false_eq_true, if_false, hlen]
  split <;>
    simp [emittedEvents_append, emittedEvents_animMap, emittedEvents]

/-- The press animation issues no move tween. -/
theorem moveTo_not_mem_press (cfg : Config) (d : ℚ) (p : Vec3) :
    AnimStep.moveTo d p ∉ playPressAnimation cfg := by
  simp [playPressAnimation]

/-- Every move tween issued by the per-target loop goes to the world
position of a valid listed target plus the configured offset, over
`moveSpeed`. -/
theorem moveTo_mem_animateNextTarget {cfg : Config} {l : List TutorialTarget}
    {d : ℚ} {p : Vec3} (h : AnimStep.moveTo d p ∈ animateNextTarget cfg l) :
    ∃ t ∈ l, t.isValid = true ∧ d = cfg.moveSpeed ∧
      p = vadd t.worldPosition cfg.handOffset := by
  induction l with
  | nil => simp [animateNextTarget] at h
  | cons t rest ih =>
    by_cases hv : t.isValid = true
    · rw [animateNextTarget, if_pos hv] at h
      rcases List.mem_cons.mp h with heq | hmem
      · obtain ⟨hd, hp⟩ := AnimStep.moveTo.inj heq
        exact ⟨t, List.mem_cons_self t rest, hv, hd, hp⟩
      · rcases List.mem_append.mp hmem with hpress | hrest
        · exact absurd hpress (moveTo_not_mem_press cfg d p)
        · obtain ⟨u, hu, h1, h2, h3⟩ := ih hrest
          exact ⟨u, List.mem_cons_of_mem t hu, h1, h2, h3⟩
    · rw [animateNextTarget, if_neg hv] at h
      obtain ⟨u, hu, h1, h2, h3⟩ := ih h
      exact ⟨u, List.mem_cons_of_mem t hu, h1, h2, h3⟩

/-- Every move tween issued by the whole animation sequence goes to the
world position of a valid listed target plus the configured offset. -/
theorem moveTo_mem_animate {cfg : Config} {l : List TutorialTarget}
    {d : ℚ} {p : Vec3} (h : AnimStep.moveTo d p ∈ animateHandThroughTargets cfg l) :
    ∃ t ∈ l, t.isValid = true ∧ d = cfg.moveSpeed ∧
      p = vadd t.worldPosition cfg.handOffset := by
  cases l with
  | nil => simp [animateHandThroughTargets] at h
  | cons t rest =>
    by_cases hv : t.isValid = true
    · rw [animateHandThroughTargets, if_pos hv] at h
      rcases List.mem_cons.mp h with heq | h
      · exact absurd heq (by simp)
      rcases List.mem_cons.mp h with heq | h
      · exact absurd heq (by simp)
      exact moveTo_mem_animateNextTarget h
    · rw [animateHandThroughTargets, if_neg hv] at h
      simp at h

/-- The per-target loop never sets the hand position directly. -/
theorem setPos_not_mem_animateNextTarget (cfg : Config) (l : List TutorialTarget)
    (p : Vec3) : AnimStep.setWorldPosition p ∉ animateNextTarget cfg l := by
  induction l with
  | nil => simp [animateNextTarget]
  | cons t rest ih =>
    by_cases hv : t.isValid = true <;>
      simp [animateNextTarget, hv, playPressAnimation, ih]

/-- The only direct position set is the initial placement: the first
target's world position plus the configured offset, only when that target
is valid. -/
theorem setPos_mem_animate {cfg : Config} {l : List TutorialTarget} {p : Vec3}
    (h : AnimStep.setWorldPosition p ∈ animateHandThroughTargets cfg l) :
    ∃ t ∈ l, t.isValid = true ∧ p = vadd t.worldPosition cfg.handOffset := by
  cases l with
  | nil => simp [animateHandThroughTargets] at h
  | cons t rest =>
    by_cases hv : t.isValid = true
    · rw [animateHandThroughTargets, if_pos hv] at h
      rcases List.mem_cons.mp h with heq | h
      · exact ⟨t, List.mem_cons_self t rest,
          hv, (AnimStep.setWorldPosition.inj heq)⟩
      rcases List.mem_cons.mp h with heq | h
      · exact absurd heq (by simp)
      · exact absurd h (setPos_not_mem_animateNextTarget cfg (t :: rest) p)
    · rw [animateHandThroughTargets, if_neg hv] at h
      simp at h

/-! ## Claim theorems -/

/-- C1: while the active flag is true, `showHint`, `showCustomHint`,
`showInactivityHint` and `showStartHint` are all no-ops: the state is
returned unchanged and the effect trace is empty (so no `hint-start` is
emitted and no component state changes). -/
theorem showHint_noop_when_active (s : TutorialState) (ht : HintType)
    (targets : List TutorialTarget) (otargets : Option (List TutorialTarget))
    (tf : Option ℕ) (h : s.isActive = true) :
    showHint s ht otargets tf = (s, []) ∧
    showCustomHint s targets ht tf = (s, []) ∧
    showInactivityHint s otargets tf = (s, []) ∧
    showStartHint s otargets tf = (s, []) := by
  simp [showHint, showCustomHint, showInactivityHint, showStartHint, h]

theorem showHint_noop_when_active_witness :
    busyState.isActive = true ∧
    (showHint busyState HintType.INACTIVITY (some [sampleTarget]) none = (busyState, []) ∧
     showCustomHint busyState [sampleTarget] HintType.CUSTOM none = (busyState, []) ∧
     showInactivityHint busyState (some [sampleTarget]) none = (busyState, []) ∧
     showStartHint busyState (some [sampleTarget]) none = (busyState, [])) :=
  ⟨rfl, showHint_noop_when_active busyState HintType.INACTIVITY [sampleTarget]
    (some [sampleTarget]) none rfl⟩

/-- C2 counterexample: a custom hint request with an empty target list is
not rejected silently — it emits `hint-start` and `hint-end`, and logs an
error rather than a warning, contradicting the claim that for every hint
type an empty target list yields no event and only a warning. -/
theorem customHint_empty_emits_events :
    emittedEvents (showCustomHint readyState [] HintType.CUSTOM none).2 =
      [Event.hintStart HintType.CUSTOM, Event.hintEnd (some HintType.CUSTOM)] ∧
    loggedLevels (showCustomHint readyState [] HintType.CUSTOM none).2 =
      [LogLevel.info, LogLevel.error] := by
  exact ⟨rfl, rfl⟩

/-- C2 (amended): an inactivity or start-game hint request whose resolved
target list is empty is rejected immediately — a warning is logged (two
warnings when the default resolver was consulted), no event is emitted and
the state is unchanged.  A custom hint request with an empty list instead
starts a session that fails at once: `hint-start` and `hint-end(CUSTOM)`
are both emitted, an error is logged, and the state is left unchanged
(the active flag ends false). -/
theorem empty_targets_rejection (s : TutorialState) (tf : Option ℕ)
    (hA : s.isActive = false) :
    showInactivityHint s (some []) tf = (s, [Eff.log LogLevel.warn]) ∧
    showInactivityHint s none tf = (s, [Eff.log LogLevel.warn, Eff.log LogLevel.warn]) ∧
    showStartHint s (some []) tf = (s, [Eff.log LogLevel.warn]) ∧
    showStartHint s none tf = (s, [Eff.log LogLevel.warn, Eff.log LogLevel.warn]) ∧
    (showCustomHint s [] HintType.CUSTOM tf).1 = s ∧
    emittedEvents (showCustomHint s [] HintType.CUSTOM tf).2 =
      [Event.hintStart HintType.CUSTOM, Event.hintEnd (some HintType.CUSTOM)] ∧
    LogLevel.error ∈ loggedLevels (showCustomHint s [] HintType.CUSTOM tf).2 := by
  obtain ⟨cfg0, it0, ia0, ir0, he0, ha0⟩ := s
  simp only at hA
  subst hA
  refine ⟨?_, ?_, ?_, ?_, ?_, ?_, ?_⟩
  · simp [showInactivityHint, getDefaultTargets]
  · simp [showInactivityHint, getDefaultTargets]
  · simp [showStartHint, getDefaultTargets]
  · simp [showStartHint, getDefaultTargets]
  · simp [showCustomHint, playHintAnimation]
  · simp [showCustomHint, playHintAnimation, emittedEvents]
  · simp [showCustomHint, playHintAnimation, loggedLevels]

theorem empty_targets_rejection_witness :
    readyState.isActive = false ∧
    (showInactivityHint readyState (some []) none = (readyState, [Eff.log LogLevel.warn]) ∧
     showInactivityHint readyState none none =
       (readyState, [Eff.log LogLevel.warn, Eff.log LogLevel.warn]) ∧
     showStartHint readyState (some []) none = (readyState, [Eff.log LogLevel.warn]) ∧
     showStartHint readyState none none =
       (readyState, [Eff.log LogLevel.warn, Eff.log LogLevel.warn]) ∧
     (showCustomHint readyState [] HintType.CUSTOM none).1 = readyState ∧
     emittedEvents (showCustomHint readyState [] HintType.CUSTOM none).2 =
       [Event.hintStart HintType.CUSTOM, Event.hintEnd (some HintType.CUSTOM)] ∧
     LogLevel.error ∈ loggedLevels (showCustomHint readyState [] HintType.CUSTOM none).2) :=
  ⟨rfl, empty_targets_rejection readyState none rfl⟩

/-- C3 counterexample: with an injected tween rejection, the session for a
valid target takes the error path (an error is logged, `hint-end` is still
emitted), yet the hand is left visible (`handActive = true`) — the code
only hides the hand on the resolve path, contradicting the claim that the
pointer actor is still set invisible on the error path. -/
theorem error_path_leaves_hand_visible :
    (showInactivityHint readyState (some [sampleTarget]) (some 0)).2 =
      [Eff.log LogLevel.info, Eff.emit (Event.hintStart HintType.INACTIVITY),
       Eff.log LogLevel.error, Eff.emit (Event.hintEnd (some HintType.INACTIVITY))] ∧
    (showInactivityHint readyState (some [sampleTarget]) (some 0)).1.handActive = true :=
  ⟨rfl, rfl⟩

/-- C3 (amended): for every hint session (any of the three flows, nonempty
targets) in which the animation pipeline rejects, the `hint-end` event is
still emitted with the session's hint type right after `hint-start`, the
error is logged, the active flag is cleared, and the call returns normally
(no error propagates to the caller) — but the pointer actor is NOT set
invisible: it remains visible, because the hide step only runs on the
resolve path. -/
theorem error_path_cleanup (s : TutorialState) (ts : List TutorialTarget)
    (ht : HintType) (k : ℕ) (hA : s.isActive = false) (hne : ts ≠ []) :
    ((showInactivityHint s (some ts) (some k)).1.isActive = false ∧
     (showInactivityHint s (some ts) (some k)).1.handActive = true ∧
     LogLevel.error ∈ loggedLevels (showInactivityHint s (some ts) (some k)).2 ∧
     emittedEvents (showInactivityHint s (some ts) (some k)).2 =
       [Event.hintStart HintType.INACTIVITY, Event.hintEnd (some HintType.INACTIVITY)]) ∧
    ((showStartHint s (some ts) (some k)).1.isActive = false ∧
     (showStartHint s (some ts) (some k)).1.handActive = true ∧
     LogLevel.error ∈ loggedLevels (showStartHint s (some ts) (some k)).2 ∧
     emittedEvents (showStartHint s (some ts) (some k)).2 =
       [Event.hintStart HintType.START_GAME, Event.hintEnd (some HintType.START_GAME)]) ∧
    ((showCustomHint s ts ht (some k)).1.isActive = false ∧
     (showCustomHint s ts ht (some k)).1.handActive = true ∧
     LogLevel.error ∈ loggedLevels (showCustomHint s ts ht (some k)).2 ∧
     emittedEvents (showCustomHint s ts ht (some k)).2 =
       [Event.hintStart ht, Event.hintEnd (some ht)]) := by
  have hlen : ¬ ts.length = 0 := by simpa using hne
  have hlt : ¬ ts.length < 1 := by
    simp [Nat.lt_one_iff, hlen]
  refine ⟨⟨?_, ?_, ?_, emitted_showInactivityHint s ts (some k) hA hne⟩,
          ⟨?_, ?_, ?_, emitted_showStartHint s ts (some k) hA hne⟩,
          ⟨?_, ?_, ?_, emitted_showCustomHint s ts ht (some k) hA⟩⟩ <;>
    simp [showInactivityHint, showStartHint, showCustomHint, playHintAnimation,
      hA, hlen, hlt, loggedLevels_append, loggedLevels_animMap, loggedLevels]

theorem error_path_cleanup_witness :
    readyState.isActive = false ∧ ([sampleTarget] : List TutorialTarget) ≠ [] ∧
    ((showInactivityHint readyState (some [sampleTarget]) (some 0)).1.isActive = false ∧
     (showInactivityHint readyState (some [sampleTarget]) (some 0)).1.handActive = true ∧
     LogLevel.error ∈ loggedLevels (showInactivityHint readyState (some [sampleTarget]) (some 0)).2 ∧
     emittedEvents (showInactivityHint readyState (some [sampleTarget]) (some 0)).2 =
       [Event.hintStart HintType.INACTIVITY, Event.hintEnd (some HintType.INACTIVITY)]) :=
  ⟨rfl, by decide,
    (error_path_cleanup readyState [sampleTarget] HintType.CUSTOM 0 rfl (by decide)).1⟩

/-- C4: one inactivity tick is a no-op while a session is active or before
setup; otherwise it increments the idle counter by 1; and when the
incremented counter reaches the configured delay it logs, emits
`player-inactive`, runs the inactivity-hint flow (which here warns and
drops, since no targets are available) and resets the counter to 0 even
though no hint started.  Concretely, with delay 15 and no resets, 14 ticks
emit nothing and leave the counter at 14, while the 15th tick emits
exactly `player-inactive` and resets the counter to 0. -/
theorem checkInactivity_spec (s : TutorialState) :
    (s.isActive = true ∨ s.isReady = false → checkInactivity s = (s, [])) ∧
    (s.isActive = false → s.isReady = true →
      s.inactivityTime + 1 < s.cfg.inactivityDelay →
      checkInactivity s = ({ s with inactivityTime := s.inactivityTime + 1 }, [])) ∧
    (s.isActive = false → s.isReady = true →
      s.cfg.inactivityDelay ≤ s.inactivityTime + 1 →
      checkInactivity s = ({ s with inactivityTime := 0 },
        [Eff.log LogLevel.info, Eff.emit Event.playerInactive,
         Eff.log LogLevel.warn, Eff.log LogLevel.warn]) ∧
      emittedEvents (checkInactivity s).2 = [Event.playerInactive]) ∧
    (tickN 14 readyState).1.inactivityTime = 14 ∧
    emittedEvents (tickN 14 readyState).2 = [] ∧
    (tickN 15 readyState).1.inactivityTime = 0 ∧
    emittedEvents (tickN 15 readyState).2 = [Event.playerInactive] := by
  refine ⟨?_, ?_, ?_, ?_, ?_, ?_, ?_⟩
  · rintro (h | h) <;> simp [checkInactivity, h]
  · intro hA hR hlt
    have hnot : ¬ s.cfg.inactivityDelay ≤ s.inactivityTime + 1 := not_le.mpr hlt
    simp [checkInactivity, hA, hR, hnot]
  · intro hA hR hle
    have heq : checkInactivity s = ({ s with inactivityTime := 0 },
        [Eff.log LogLevel.info, Eff.emit Event.playerInactive,
         Eff.log LogLevel.warn, Eff.log LogLevel.warn]) := by
      simp [checkInactivity, hA, hR, hle, showInactivityHint, getDefaultTargets,
        resetInactivityTimer]
    refine ⟨heq, ?_⟩
    rw [heq]
    rfl
  · decide
  · decide
  · decide
  · decide

theorem checkInactivity_spec_witness :
    checkInactivity busyState = (busyState, []) ∧
    checkInactivity readyState =
      ({ readyState with inactivityTime := readyState.inactivityTime + 1 }, []) :=
  ⟨(checkInactivity_spec busyState).1 (Or.inl rfl),
   (checkInactivity_spec readyState).2.1 rfl rfl (by decide)⟩

/-- C5: for a hint session started with more than 3 targets (any flow, any
pipeline outcome), every move tween issued targets one of the first 3
targets (the rest are truncated by `slice(0, 3)`), and `hint-start` and
`hint-end` are each emitted exactly once. -/
theorem first_three_targets_only (cfg : Config) (h0 : Bool) (s : TutorialState)
    (targets : List TutorialTarget) (ht : HintType) (tf : Option ℕ)
    (hA : s.isActive = false) (h3 : 3 < targets.length) :
    (∀ d p, AnimStep.moveTo d p ∈ (playHintAnimation cfg h0 targets tf).steps →
      ∃ t ∈ targets.take 3, t.isValid = true ∧
        p = vadd t.worldPosition cfg.handOffset) ∧
    (emittedEvents (showCustomHint s targets ht tf).2).count
      (Event.hintStart ht) = 1 ∧
    (emittedEvents (showCustomHint s targets ht tf).2).count
      (Event.hintEnd (some ht)) = 1 ∧
    (emittedEvents (showInactivityHint s (some targets) tf).2).count
      (Event.hintStart HintType.INACTIVITY) = 1 ∧
    (emittedEvents (showInactivityHint s (some targets) tf).2).count
      (Event.hintEnd (some HintType.INACTIVITY)) = 1 ∧
    (emittedEvents (showStartHint s (some targets) tf).2).count
      (Event.hintStart HintType.START_GAME) = 1 ∧
    (emittedEvents (showStartHint s (some targets) tf).2).count
      (Event.hintEnd (some HintType.START_GAME)) = 1 := by
  have hne : targets ≠ [] := by
    intro h
    rw [h] at h3
    simp at h3
  have hlt : ¬ targets.length < 1 := by omega
  constructor
  · intro d p hmem
    rw [playHintAnimation, if_neg hlt] at hmem
    have hmem2 : AnimStep.moveTo d p ∈
        animateHandThroughTargets cfg (targets.take 3) := by
      cases tf with
      | none => exact hmem
      | some k => exact List.take_subset k _ hmem
    obtain ⟨t, htm, h1, _, h3p⟩ := moveTo_mem_animate hmem2
    exact ⟨t, htm, h1, h3p⟩
  refine ⟨?_, ?_, ?_, ?_, ?_, ?_⟩ <;>
    simp [emitted_showCustomHint s targets ht tf hA,
      emitted_showInactivityHint s targets tf hA hne,
      emitted_showStartHint s targets tf hA hne, List.count_cons]

theorem first_three_targets_only_witness :
    readyState.isActive = false ∧
    3 < ([sampleTarget, sampleTarget, sampleTarget, sampleTarget] :
      List TutorialTarget).length ∧
    (emittedEvents (showCustomHint readyState
        [sampleTarget, sampleTarget, sampleTarget, sampleTarget]
        HintType.CUSTOM none).2).count (Event.hintStart HintType.CUSTOM) = 1 :=
  ⟨rfl, by decide,
    (first_three_targets_only defaultConfig false readyState
      [sampleTarget, sampleTarget, sampleTarget, sampleTarget]
      HintType.CUSTOM none rfl (by decide)).2.1⟩

/-- C6: a session whose first target is invalid at animation time issues
no animation command at all (the sequence resolves immediately, remaining
targets are not visited), and the trace of each flow is exactly a log,
`hint-start`, `hint-end` — so `hint-end` immediately follows `hint-start`
with the same hint type. -/
theorem invalid_first_target_immediate (cfg : Config) (s : TutorialState)
    (t : TutorialTarget) (rest : List TutorialTarget) (ht : HintType)
    (hA : s.isActive = false) (hv : t.isValid = false) :
    animateHandThroughTargets cfg (t :: rest) = [] ∧
    (showCustomHint s (t :: rest) ht none).2 =
      [Eff.log LogLevel.info, Eff.emit (Event.hintStart ht),
       Eff.emit (Event.hintEnd (some ht))] ∧
    (showInactivityHint s (some (t :: rest)) none).2 =
      [Eff.log LogLevel.info, Eff.emit (Event.hintStart HintType.INACTIVITY),
       Eff.emit (Event.hintEnd (some HintType.INACTIVITY))] ∧
    (showStartHint s (some (t :: rest)) none).2 =
      [Eff.log LogLevel.info, Eff.emit (Event.hintStart HintType.START_GAME),
       Eff.emit (Event.hintEnd (some HintType.START_GAME))] := by
  refine ⟨?_, ?_, ?_, ?_⟩ <;>
    simp [showCustomHint, showInactivityHint, showStartHint, playHintAnimation,
      animateHandThroughTargets, hA, hv]

theorem invalid_first_target_immediate_witness :
    readyState.isActive = false ∧ invalidTarget.isValid = false ∧
    (showCustomHint readyState [invalidTarget, sampleTarget] HintType.CUSTOM none).2 =
      [Eff.log LogLevel.info, Eff.emit (Event.hintStart HintType.CUSTOM),
       Eff.emit (Event.hintEnd (some HintType.CUSTOM))] :=
  ⟨rfl, rfl,
    (invalid_first_target_immediate defaultConfig readyState invalidTarget
      [sampleTarget] HintType.CUSTOM rfl rfl).2.1⟩

/-- C7: every position the hand is sent to (initial direct set or move
tween) is a valid target's world position plus the configured offset,
component-wise; and for offset (0, 1, 0) and target world position
(5, 0, 5) that sum is (5, 1, 5). -/
theorem pointer_position_offset (cfg : Config) (targets : List TutorialTarget) :
    (∀ d p, AnimStep.moveTo d p ∈ animateHandThroughTargets cfg targets →
      ∃ t ∈ targets, t.isValid = true ∧
        p = ⟨t.worldPosition.x + cfg.handOffset.x,
             t.worldPosition.y + cfg.handOffset.y,
             t.worldPosition.z + cfg.handOffset.z⟩) ∧
    (∀ p, AnimStep.setWorldPosition p ∈ animateHandThroughTargets cfg targets →
      ∃ t ∈ targets, t.isValid = true ∧
        p = ⟨t.worldPosition.x + cfg.handOffset.x,
             t.worldPosition.y + cfg.handOffset.y,
             t.worldPosition.z + cfg.handOffset.z⟩) ∧
    vadd sampleTarget.worldPosition offsetConfig.handOffset = ⟨5, 1, 5⟩ := by
  refine ⟨?_, ?_, ?_⟩
  · intro d p hmem
    obtain ⟨t, htm, h1, _, hp⟩ := moveTo_mem_animate hmem
    exact ⟨t, htm, h1, hp⟩
  · intro p hmem
    obtain ⟨t, htm, h1, hp⟩ := setPos_mem_animate hmem
    exact ⟨t, htm, h1, hp⟩
  · show vadd ⟨5, 0, 5⟩ ⟨0, 1, 0⟩ = ⟨5, 1, 5⟩
    rw [vadd]
    norm_num

theorem pointer_position_offset_witness :
    AnimStep.moveTo offsetConfig.moveSpeed
        (vadd sampleTarget.worldPosition offsetConfig.handOffset) ∈
      animateHandThroughTargets offsetConfig [sampleTarget] ∧
    ∃ t ∈ ([sampleTarget] : List TutorialTarget), t.isValid = true ∧
      vadd sampleTarget.worldPosition offsetConfig.handOffset =
        ⟨t.worldPosition.x + offsetConfig.handOffset.x,
         t.worldPosition.y + offsetConfig.handOffset.y,
         t.worldPosition.z + offsetConfig.handOffset.z⟩ :=
  ⟨by simp [animateHandThroughTargets, animateNextTarget, sampleTarget],
   (pointer_position_offset offsetConfig [sampleTarget]).1
     offsetConfig.moveSpeed
     (vadd sampleTarget.worldPosition offsetConfig.handOffset)
     (by simp [animateHandThroughTargets, animateNextTarget, sampleTarget])⟩

/-- C8: the press animation is exactly three phases — scale to the pressed
scale (configured hand scale with X and Y multiplied by the press-scale
multiplier, Z unchanged) over `pressAnimationDuration`, scale back to the
original over the same duration, then a fixed 0.3-second hold before
resolving. -/
theorem press_animation_three_phases (cfg : Config) :
    playPressAnimation cfg =
      [AnimStep.scaleTo cfg.pressAnimationDuration
         ⟨cfg.handScale.x * cfg.pressAnimationScale,
          cfg.handScale.y * cfg.pressAnimationScale,
          cfg.handScale.z⟩,
       AnimStep.scaleTo cfg.pressAnimationDuration cfg.handScale,
       AnimStep.delay (3/10)] := rfl

/-- C9: `stop()` with no active session is a no-op with an empty trace;
with an active session it stops the hand's tween, hides the hand (when it
exists), clears the active flag, leaves all other state unchanged, and
emits exactly `hint-end` with no type payload. -/
theorem stop_spec (s : TutorialState) :
    (s.isActive = false → stop s = (s, [])) ∧
    (s.isActive = true →
      animCmds (stop s).2 = [AnimStep.tweenStop] ∧
      (stop s).1.isActive = false ∧
      (s.handExists = true → (stop s).1.handActive = false) ∧
      (stop s).1.cfg = s.cfg ∧
      (stop s).1.inactivityTime = s.inactivityTime ∧
      (stop s).1.isReady = s.isReady ∧
      emittedEvents (stop s).2 = [Event.hintEnd none]) := by
  constructor
  · intro h
    simp [stop, h]
  · intro h
    refine ⟨?_, ?_, ?_, ?_, ?_, ?_, ?_⟩ <;>
      simp [stop, h, animCmds, emittedEvents]
    intro he
    simp [he]

theorem stop_spec_witness :
    stop readyState = (readyState, []) ∧
    (busyState.isActive = true →
      animCmds (stop busyState).2 = [AnimStep.tweenStop] ∧
      (stop busyState).1.isActive = false ∧
      (busyState.handExists = true → (stop busyState).1.handActive = false) ∧
      (stop busyState).1.cfg = busyState.cfg ∧
      (stop busyState).1.inactivityTime = busyState.inactivityTime ∧
      (stop busyState).1.isReady = busyState.isReady ∧
      emittedEvents (stop busyState).2 = [Event.hintEnd none]) :=
  ⟨(stop_spec readyState).1 rfl, (stop_spec busyState).2⟩

/-- C10: the `HintType` enum has a fourth value `MISSION_FAIL` (numeric
value 2) distinct from the three spec-listed types; `showHint` with
`MISSION_FAIL` never changes the state, never emits an event and never
issues an animation command; when no session is active it does exactly one
thing: log a warning. -/
theorem mission_fail_not_implemented (s : TutorialState)
    (otargets : Option (List TutorialTarget)) (tf : Option ℕ) :
    HintType.MISSION_FAIL ∉
      [HintType.START_GAME, HintType.INACTIVITY, HintType.CUSTOM] ∧
    HintType.toNat HintType.MISSION_FAIL = 2 ∧
    (showHint s HintType.MISSION_FAIL otargets tf).1 = s ∧
    emittedEvents (showHint s HintType.MISSION_FAIL otargets tf).2 = [] ∧
    animCmds (showHint s HintType.MISSION_FAIL otargets tf).2 = [] ∧
    (s.isActive = false →
      showHint s HintType.MISSION_FAIL otargets tf = (s, [Eff.log LogLevel.warn])) := by
  refine ⟨by decide, rfl, ?_, ?_, ?_, ?_⟩ <;>
    by_cases h : s.isActive = true <;>
      simp [showHint, h, emittedEvents, animCmds]

theorem mission_fail_not_implemented_witness :
    showHint readyState HintType.MISSION_FAIL none none =
      (readyState, [Eff.log LogLevel.warn]) :=
  (mission_fail_not_implemented readyState none none).2.2.2.2.2 rfl

end Tutorial
